import Mathlib

/-!
Verification development for the obscureX autonomous optimization agent.

The definitions below are a shallow embedding of the decision engine and
dual-layer memory system of the repository: the memory tools of
`src/agent.js` and `src/tools/memory`, the trend analyzer and strategy
recommender of `src/tools/autonomy/recommendOptimizationStrategy.js`, the
metric extraction of `testMLPipeline`, and the autonomous run loop of the
`AutonomousOrchestrator`. Metric samples are modelled as exact rationals;
the external advisory service, the code generator and the artifact executor
are modelled as oracles, since the engine only observes their results.
-/

/- ===================== Memory store ===================== -/

/-- Entry of the short-term (session) memory layer, as built by the
`storeMemory` tool: `{key, value, metadata}`. Session entries carry no
history field. Values and metadata are opaque to the store, so they are
type parameters. -/
structure SessionEntry (V M : Type) where
  key : String
  value : V
  metadata : M
deriving DecidableEq

/-- Entry of the long-term (persistent) memory layer. The optional JS
`history` field (absent is observationally the empty list, since every
reader defaults it with `entry.history || []`) is modelled as a list of
prior `(value, metadata)` pairs. -/
structure LongTermEntry (V M : Type) where
  key : String
  value : V
  metadata : M
  history : List (V × M)
deriving DecidableEq

/-- Upsert of the `storeMemory` tool on the entry list: the source runs
`findIndex(e => e.key === key)` and either assigns the slot at the found
index the freshly built entry or pushes it at the end. Rendered as a
structural recursion that replaces the first entry whose key matches, else
appends. -/
def storeMemoryEntries {V M : Type} (key : String) (value : V) (md : M) :
    List (SessionEntry V M) → List (SessionEntry V M)
  | [] => [⟨key, value, md⟩]
  | e :: rest =>
    if e.key == key then ⟨key, value, md⟩ :: rest
    else e :: storeMemoryEntries key value md rest

/-- Upsert of the `storeLongTermMemory` tool. On an existing key the source
pushes the prior `(value, metadata)` pair onto the `history` array of the
object currently stored at the found index, and then assigns that index the
freshly built entry, which is an object with no `history` field. The pushed
pair therefore lives only on the discarded old object, and the net effect
on the stored list is replacement of the slot by a fresh entry with empty
history. On a missing key the fresh entry is pushed at the end. -/
def storeLongTermEntries {V M : Type} (key : String) (value : V) (md : M) :
    List (LongTermEntry V M) → List (LongTermEntry V M)
  | [] => [⟨key, value, md, []⟩]
  | e :: rest =>
    if e.key == key then ⟨key, value, md, []⟩ :: rest
    else e :: storeLongTermEntries key value md rest

/-- Result object of the `retrieveMemory` tool, restricted to the fields
relevant here: `success` and the returned value (`none` models the `null`
of a miss). -/
structure SessionRetrieveResult (V : Type) where
  success : Bool
  value? : Option V
deriving DecidableEq

/-- Result object of the `retrieveLongTermMemory` tool: on a hit it reports
the entry value together with `entry.history || []`. -/
structure LongTermRetrieveResult (V M : Type) where
  success : Bool
  value? : Option V
  history : List (V × M)
deriving DecidableEq

/-- The `retrieveMemory` tool: `entries.find(e => e.key === key)`. Reading
does not modify the store, which the model makes explicit by returning the
entry list unchanged alongside the result. -/
def retrieveMemory {V M : Type} (entries : List (SessionEntry V M)) (key : String) :
    SessionRetrieveResult V × List (SessionEntry V M) :=
  match entries.find? (fun e => e.key == key) with
  | some e => (⟨true, some e.value⟩, entries)
  | none => (⟨false, none⟩, entries)

/-- The `retrieveLongTermMemory` tool, likewise returning the entry list
unchanged. -/
def retrieveLongTermMemory {V M : Type} (entries : List (LongTermEntry V M)) (key : String) :
    LongTermRetrieveResult V M × List (LongTermEntry V M) :=
  match entries.find? (fun e => e.key == key) with
  | some e => (⟨true, some e.value, e.history⟩, entries)
  | none => (⟨false, none, []⟩, entries)

/-- In-memory and on-disk copies of one memory layer. `disk` is the durable
file contents after the last successful `writeFileSync`. -/
structure MemoryStoreState (V M : Type) where
  entries : List (SessionEntry V M)
  disk : List (SessionEntry V M)
deriving DecidableEq

/-- The `_saveMemory` helper: `writeFileSync` inside a try/catch whose
handler only logs with `console.error`. A failed flush (modelled by
`flushOk = false`) leaves the durable copy unchanged, and no error reaches
the caller in either case. -/
def saveMemory {V M : Type} (flushOk : Bool) (st : MemoryStoreState V M) :
    MemoryStoreState V M :=
  if flushOk then { st with disk := st.entries } else st

/-- Result object of the `storeMemory` tool, restricted to `success`. -/
structure StoreResult where
  success : Bool
deriving DecidableEq

/-- The `storeMemory` tool as a whole: upsert the entry list, call
`_saveMemory`, and return `{success: true, ...}` unconditionally. -/
def storeMemoryOp {V M : Type} (st : MemoryStoreState V M) (key : String) (value : V)
    (md : M) (flushOk : Bool) : MemoryStoreState V M × StoreResult :=
  let st1 : MemoryStoreState V M := { st with entries := storeMemoryEntries key value md st.entries }
  (saveMemory flushOk st1, ⟨true⟩)

/- ===================== Trend analyzer and strategy recommender ===================== -/

/-- Output object of `_analyzeTrends`. With fewer than two samples the
source returns only `{trend, improvement, stagnant}`; the fields it omits
there are modelled as `none`. -/
structure Trends where
  trend : String
  improvement : Bool
  stagnant : Bool
  avgImprovement : Option ℚ
  recentMSEs : Option (List ℚ)
deriving DecidableEq

/-- Consecutive sample differences `recent[i-1] - recent[i]` computed by the
loop inside `_analyzeTrends` (positive means improvement, lower is better). -/
def consecutiveImprovements : List ℚ → List ℚ
  | a :: b :: rest => (a - b) :: consecutiveImprovements (b :: rest)
  | _ => []

/-- The `_analyzeTrends` helper of `recommendOptimizationStrategy`. The argument is
`none` when the history is missing or null (the `!mseHistory` guard);
`slice(-5)` keeps the last `min(5, len)` samples. -/
def analyzeTrends (mseHistory : Option (List ℚ)) : Trends :=
  match mseHistory with
  | none => ⟨"insufficient_data", false, false, none, none⟩
  | some l =>
    if l.length < 2 then ⟨"insufficient_data", false, false, none, none⟩
    else
      let recent := l.drop (l.length - 5)
      let improvements := consecutiveImprovements recent
      let avgImprovement := improvements.sum / (improvements.length : ℚ)
      let isImproving := decide (0 < avgImprovement)
      let isStagnant := decide (|avgImprovement| < 1/1000)
      ⟨if isImproving then "improving" else "declining", isImproving, isStagnant,
        some avgImprovement, some recent⟩

/-- Recommendation object shared by `_fallbackStrategy` and a parsed
advisory reply. -/
structure StrategyRecommendation where
  strategy : String
  technique : String
  expectedImpact : String
  alternativeStrategy : String
  tryDifferentApproach : Bool
deriving DecidableEq

/-- The `_fallbackStrategy` helper: the deterministic rule ladder used when no advisory
service is available or its reply cannot be parsed. `currentMSE` and
`targetMSE` are accepted but unused, as in the source. -/
def fallbackStrategy (mseHistory : Option (List ℚ)) (currentMSE targetMSE : ℚ)
    (iterationNumber : ℕ) : StrategyRecommendation :=
  let trends := analyzeTrends mseHistory
  let strategyTechnique : String × String :=
    if trends.stagnant then
      ("Try different approach", "Switch to ensemble methods or different model architecture")
    else if !trends.improvement then
      ("Simplify and regularize", "Add regularization, reduce model complexity")
    else if iterationNumber < 10 then
      ("Hyperparameter tuning", "Apply GridSearchCV for optimal parameters")
    else if iterationNumber < 20 then
      ("Feature engineering", "Add polynomial features and feature interactions")
    else
      ("Ensemble methods", "Combine multiple models with voting or stacking")
  { strategy := strategyTechnique.1
    technique := strategyTechnique.2
    expectedImpact := "Moderate improvement expected"
    alternativeStrategy := "Try cross-validation with different model"
    tryDifferentApproach := trends.stagnant || !trends.improvement }

/-- Observable behaviour of the external advisory service from the point of
view of the recommender tool: not configured (`anthropic` null), a call or
parse failure (the catch inside `_getAIRecommendation`), or a successfully
parsed structured reply. -/
inductive AdvisoryOutcome where
  | unavailable
  | parseFail
  | reply (r : StrategyRecommendation)
deriving DecidableEq

/-- The `execute` entry point of `recommendOptimizationStrategy`, projected
to the recommendation it yields: with no service configured the fallback
object is returned directly; with a service, the parsed reply is the
`recommendation` field of the wrapped result, and a failed call or an
unparseable reply falls back to `_fallbackStrategy`. -/
def recommendExecute (mseHistory : Option (List ℚ)) (currentMSE targetMSE : ℚ)
    (iterationNumber : ℕ) (advisory : AdvisoryOutcome) : StrategyRecommendation :=
  match advisory with
  | .unavailable => fallbackStrategy mseHistory currentMSE targetMSE iterationNumber
  | .parseFail => fallbackStrategy mseHistory currentMSE targetMSE iterationNumber
  | .reply r => r

/-- One of the five rungs of the rule ladder, as named by the
specification. -/
inductive LadderRung where
  | tryDifferentApproach
  | simplifyRegularize
  | hyperparameterTuning
  | featureEngineering
  | ensembleMethods
deriving DecidableEq

/-- Rule ladder exactly as the specification orders it. Modelled from the
spec wording, for comparison with `fallbackStrategy`. -/
def ladderSpec (stagnant improving : Bool) (iteration : ℕ) : LadderRung :=
  if stagnant then .tryDifferentApproach
  else if !improving then .simplifyRegularize
  else if iteration < 10 then .hyperparameterTuning
  else if iteration < 20 then .featureEngineering
  else .ensembleMethods

/-- Mapping of the strategy strings produced by `fallbackStrategy` back to
abstract ladder rungs. -/
def rungOfStrategy (s : String) : Option LadderRung :=
  if s == "Try different approach" then some .tryDifferentApproach
  else if s == "Simplify and regularize" then some .simplifyRegularize
  else if s == "Hyperparameter tuning" then some .hyperparameterTuning
  else if s == "Feature engineering" then some .featureEngineering
  else if s == "Ensemble methods" then some .ensembleMethods
  else none

/- ===================== Artifact executor metric extraction ===================== -/

/-- Character class `[0-9.]` of the metric-extraction regexes inside
`testMLPipeline`. -/
def isNumChar (c : Char) : Bool := c.isDigit || c == '.'

/-- JavaScript regex class `\s`, restricted to the whitespace characters
that can occur in program output. -/
def isSpaceChar (c : Char) : Bool :=
  c == ' ' || c == '\t' || c == '\n' || c == '\r' || c == '\x0b' || c == '\x0c'

/-- Character class `[:\s=]` of the labelled pattern. -/
def isSepChar (c : Char) : Bool := c == ':' || c == '=' || isSpaceChar c

/-- One attempt of the regex `MSE[:\s=]+([0-9.]+)` (case-insensitive)
anchored at the head of the character list: the literal label, one or more
separator characters, then the captured maximal run of `[0-9.]`. The two
character classes are disjoint, so greedy matching needs no backtracking. -/
def labelMatchHere : List Char → Option (List Char)
  | c1 :: c2 :: c3 :: rest =>
    if c1.toLower == 'm' && c2.toLower == 's' && c3.toLower == 'e' then
      let seps := rest.takeWhile isSepChar
      let afterSeps := rest.dropWhile isSepChar
      let num := afterSeps.takeWhile isNumChar
      if seps.isEmpty || num.isEmpty then none else some num
    else none
  | _ => none

/-- First position at which the labelled pattern matches, as the regex
engine scans the whole output in `output.match(...)`. -/
def findLabelledMSE : List Char → Option (List Char)
  | [] => none
  | c :: rest =>
    match labelMatchHere (c :: rest) with
    | some num => some num
    | none => findLabelledMSE rest

/-- JavaScript `String.prototype.trim`: leading and trailing whitespace removed. -/
def trimChars (l : List Char) : List Char :=
  ((l.dropWhile isSpaceChar).reverse.dropWhile isSpaceChar).reverse

/-- The computation `output.trim().split(newline)` followed by taking the last line.
`split` always yields at least one piece, so the last line of an empty
output is the empty line. -/
def lastLine (l : List Char) : List Char :=
  (((trimChars l).splitOn '\n').getLast?).getD []

/-- First maximal run of `[0-9.]` in the line: what
`lastLine.match(/([0-9.]+)/)` captures. -/
def firstNumRun : List Char → Option (List Char)
  | [] => none
  | c :: rest =>
    if isNumChar c then some ((c :: rest).takeWhile isNumChar)
    else firstNumRun rest

/-- Metric token chosen by `testMLPipeline` from the output of a successful
run: the labelled match anywhere in the output, else the first numeric run
on the last line of the trimmed output. -/
def extractMSEToken (output : List Char) : Option (List Char) :=
  match findLabelledMSE output with
  | some num => some num
  | none => firstNumRun (lastLine output)

/-- Helper for `lastNumRun`: a left fold tracking the numeric run in
progress and the most recently completed run. -/
def lastNumRunStep (st : List Char × Option (List Char)) (c : Char) :
    List Char × Option (List Char) :=
  if isNumChar c then (st.1 ++ [c], st.2)
  else if st.1.isEmpty then ([], st.2) else ([], some st.1)

/-- Last maximal run of `[0-9.]` in the line: the token selected by the
reading of the specification ("last numeric token on the last output
line"). -/
def lastNumRun (l : List Char) : Option (List Char) :=
  match l.foldl lastNumRunStep ([], none) with
  | ([], last) => last
  | (run, _) => some run

/-- Metric token as the specification describes the fallback: the labelled
pattern, else the LAST numeric token on the last output line. Modelled from
the spec wording, for comparison with `extractMSEToken`. -/
def extractMSETokenSpec (output : List Char) : Option (List Char) :=
  match findLabelledMSE output with
  | some num => some num
  | none => lastNumRun (lastLine output)

/-- The `mse` field of a `testMLPipeline` result: `null` on an execution
failure, `undefined` when no token could be extracted from a successful
run, or the extracted token. -/
inductive MseField where
  | null
  | undef
  | token (t : List Char)
deriving DecidableEq

/-- Result object of `testMLPipeline`, restricted to the fields the run
loops read. `execOutput = none` models `execSync` throwing (the catch
branch returns `success:false, mse:null`); otherwise `success` is true and
`mse` is the extracted token, absent when extraction finds nothing. -/
structure TestPipelineResult where
  success : Bool
  mse : MseField
deriving DecidableEq

/-- The `testMLPipeline` tool as observed through its result object, with the
execution of the generated program as an oracle. -/
def testMLPipeline (execOutput : Option (List Char)) : TestPipelineResult :=
  match execOutput with
  | none => ⟨false, .null⟩
  | some output =>
    match extractMSEToken output with
    | some t => ⟨true, .token t⟩
    | none => ⟨true, .undef⟩

/- ===================== Autonomous run loop ===================== -/

/-- Observable outcome of one iteration of the body of `runAutonomous` in
the `AutonomousOrchestrator`: which branch the iteration took and, for a
tested pipeline, the extracted metric (`none` models an `undefined` mse)
together with the freshly generated artifact text. `decisionFail` covers
both a failed decision cycle and a caught per-iteration exception, which
`continue` past the terminal check; `noPipeline` covers the
feature-engineering and data-preparation dispatches, which leave the
metrics untouched; `genFail` is a failed `generateMLPipeline`; `noDataGen`
is a generated pipeline with no data file to test it on, and `testFail` a
pipeline whose test failed or returned a null mse - both fall through to
the return that overwrites `bestCode` with the new untested code. -/
inductive IterEvent where
  | decisionFail
  | noPipeline
  | genFail
  | noDataGen (code : String)
  | testFail (code : String)
  | tested (m : Option ℚ) (code : String)
deriving DecidableEq

/-- Configuration of a `runAutonomous` call: the MSE threshold and the
previous best `(mse, code)` pair found in long-term memory, if any. -/
structure AutoConfig where
  mseThreshold : ℚ
  recovered : Option (ℚ × String)
deriving DecidableEq

/-- The mutable `currentState` of `runAutonomous`, restricted to the fields
with observable behaviour. `mse = none` covers both the initial null and an
undefined test result, which behave identically in every read; `bestMSE =
none` models the initial Infinity. -/
structure AutoState where
  iteration : ℕ
  mse : Option ℚ
  bestMSE : Option ℚ
  bestCode : Option String
  mseHistory : List (Option ℚ)
deriving DecidableEq

/-- Initial `currentState`, including the unconditional seeding of
`bestMSE` and `bestCode` from the long-term memory entry when one was
found. -/
def initialAutoState (cfg : AutoConfig) : AutoState :=
  { iteration := 0
    mse := none
    bestMSE := cfg.recovered.map Prod.fst
    bestCode := cfg.recovered.map Prod.snd
    mseHistory := [] }

/-- JavaScript comparison `mse < currentState.bestMSE` with `bestMSE`
possibly Infinity (`none` on the right) and `mse` possibly undefined
(`none` on the left, for which every `<` comparison is false). -/
def jsLtBest : Option ℚ → Option ℚ → Bool
  | none, _ => false
  | some _, none => true
  | some m, some b => decide (m < b)

/-- State transformation of one loop iteration after the iteration counter
has been incremented: the dispatch of `_executeDecision` combined with the
metric and best-tracking updates of `_executeOptimization`. -/
def autoStep (e : IterEvent) (s : AutoState) : AutoState :=
  match e with
  | .decisionFail => s
  | .noPipeline => s
  | .genFail => s
  | .noDataGen code => { s with bestCode := some code }
  | .testFail code => { s with bestCode := some code }
  | .tested m code =>
    let s1 := { s with mse := m, mseHistory := s.mseHistory ++ [m] }
    if jsLtBest m s.bestMSE then { s1 with bestMSE := m, bestCode := some code } else s1

/-- The terminal check of the loop, written in the source as
`if (currentState.mse && currentState.mse <= mseThreshold)`: JavaScript
truthiness makes a null, undefined or ZERO metric fail the guard. -/
def terminalCheck (cfg : AutoConfig) (s : AutoState) : Bool :=
  match s.mse with
  | some q => decide (q ≠ 0) && decide (q ≤ cfg.mseThreshold)
  | none => false

/-- Result object of `runAutonomous`. -/
structure AutoResult where
  success : Bool
  iterations : ℕ
  finalMSE : Option ℚ
  bestMSE : Option ℚ
  objectiveAchieved : Bool
deriving DecidableEq

/-- Comparison `currentState.bestMSE <= mseThreshold` with Infinity as
`none`. -/
def bestMeets (b : Option ℚ) (t : ℚ) : Bool :=
  match b with
  | none => false
  | some q => decide (q ≤ t)

/-- Iterations that reach the `continue` before the terminal check. -/
def skipsTerminalCheck : IterEvent → Bool
  | .decisionFail => true
  | _ => false

/-- Main loop of `runAutonomous`: one oracle event is consumed per
iteration; a failed decision cycle skips the terminal check; a normal
iteration stops with success when the truthiness-guarded terminal check
passes; an exhausted event list is the `iteration < maxIterations` bound
being reached, producing the partial-success result. The final state is
returned alongside the result object. -/
def runAutoAux (cfg : AutoConfig) (s : AutoState) :
    List IterEvent → AutoResult × AutoState
  | [] =>
    (⟨bestMeets s.bestMSE cfg.mseThreshold, s.iteration, s.mse, s.bestMSE, false⟩, s)
  | e :: rest =>
    let s1 := autoStep e { s with iteration := s.iteration + 1 }
    if skipsTerminalCheck e then runAutoAux cfg s1 rest
    else if terminalCheck cfg s1 then
      (⟨true, s1.iteration, s1.mse, s1.bestMSE, true⟩, s1)
    else runAutoAux cfg s1 rest

/-- The whole `runAutonomous` call, run from the initial state. -/
def runAutonomous (cfg : AutoConfig) (events : List IterEvent) :
    AutoResult × AutoState :=
  runAutoAux cfg (initialAutoState cfg) events

/- ===================== Derived notions used by the properties ===================== -/

/-- Ordering on best metrics with `none` as Infinity. -/
def leBest : Option ℚ → Option ℚ → Bool
  | _, none => true
  | none, some _ => false
  | some a, some b => decide (a ≤ b)

/-- Numeric samples actually observed in `mseHistory` (entries recording an
undefined mse are dropped). -/
def observedMetrics (s : AutoState) : List ℚ := s.mseHistory.filterMap id

/-- Minimum of two best metrics with `none` as Infinity. -/
def minBest : Option ℚ → Option ℚ → Option ℚ
  | none, b => b
  | some a, none => some a
  | some a, some b => some (min a b)

/-- Minimum of a list of metrics, `none` when the list is empty. -/
def minList (l : List ℚ) : Option ℚ :=
  l.foldl (fun acc q => minBest acc (some q)) none

/-- Update of the `(bestMSE, bestCode)` pair by one tested metric, as the
improvement branch of `_executeOptimization` performs it. -/
def specStep (acc : Option ℚ × Option String) (p : ℚ × String) :
    Option ℚ × Option String :=
  if jsLtBest (some p.1) acc.1 then (some p.1, some p.2) else acc

/-- Reference tracker keeping the best metric and the artifact that
produced it as one pair. -/
def specBest (acc : Option (ℚ × String)) (p : ℚ × String) : Option (ℚ × String) :=
  if jsLtBest (some p.1) (acc.map Prod.fst) then some p else acc

/-- The `(metric, artifact)` pair of an iteration that obtained a numeric
metric. -/
def testedPair? : IterEvent → Option (ℚ × String)
  | .tested (some q) code => some (q, code)
  | _ => none

/-- The `(metric, artifact)` pairs of the iterations that obtained a
numeric metric, in order. -/
def testedPairs (events : List IterEvent) : List (ℚ × String) :=
  events.filterMap testedPair?

/-- Events that never take the fall-through return overwriting `bestCode`
with untested code. -/
def cleanEvent : IterEvent → Bool
  | .noDataGen _ => false
  | .testFail _ => false
  | _ => true

/- ===================== Theorems ===================== -/

/-- After a session-layer upsert, the first entry found under the written
key is the freshly written one. -/
theorem find?_storeMemoryEntries {V M : Type} (entries : List (SessionEntry V M))
    (key : String) (value : V) (md : M) :
    (storeMemoryEntries key value md entries).find? (fun e => e.key == key)
      = some ⟨key, value, md⟩ := by
  induction entries with
  | nil => simp [storeMemoryEntries]
  | cons e rest ih =>
    by_cases h : e.key == key
    · simp [storeMemoryEntries, h]
    · simp only [storeMemoryEntries, h, if_neg, Bool.false_eq_true, not_false_eq_true,
        List.find?_cons_of_neg, ih]

/-- After a long-term-layer upsert, the first entry found under the written
key is the freshly written one, whose history is empty. -/
theorem find?_storeLongTermEntries {V M : Type} (entries : List (LongTermEntry V M))
    (key : String) (value : V) (md : M) :
    (storeLongTermEntries key value md entries).find? (fun e => e.key == key)
      = some ⟨key, value, md, []⟩ := by
  induction entries with
  | nil => simp [storeLongTermEntries]
  | cons e rest ih =>
    by_cases h : e.key == key
    · simp [storeLongTermEntries, h]
    · simp only [storeLongTermEntries, h, if_neg, Bool.false_eq_true, not_false_eq_true,
        List.find?_cons_of_neg, ih]

/-- C1: the persistent layer does NOT keep history. Writing the key
`best_pipeline` twice (values `v1` then `v2`) on an initially empty
long-term store leaves the stored entry with history length 0, where the
claim requires length 1: the source pushes the prior pair onto the history
of the old entry object and then replaces the array slot with a fresh
entry that has no history field, so the pushed history is discarded on
every overwrite. -/
theorem C1_history_lost_on_overwrite :
    ((storeLongTermEntries "best_pipeline" "v2" 2
        (storeLongTermEntries "best_pipeline" "v1" 1
          ([] : List (LongTermEntry String ℕ)))).find?
      (fun e => e.key == "best_pipeline")).map (fun e => e.history.length) = some 0 := by
  decide

/-- C2, counterexample: a session-layer write whose durable flush fails
still returns `{success: true}`, and the durable copy is left behind - the
claim that the write operation never reports success when the flush failed
is false at this input. -/
theorem C2_flush_failure_still_reports_success :
    (storeMemoryOp (⟨[], []⟩ : MemoryStoreState String ℕ) "k" "v" 0 false).2.success = true
    ∧ (storeMemoryOp (⟨[], []⟩ : MemoryStoreState String ℕ) "k" "v" 0 false).1.disk = [] := by
  exact ⟨rfl, rfl⟩

/-- C2, amended: every write updates the in-memory layer and attempts the
flush before returning - the durable copy equals the updated entries
exactly when the flush succeeded, and is untouched otherwise - but the
write reports success regardless of the flush outcome, because the
try/catch inside `_saveMemory` only logs the error. -/
theorem C2_flush_swallowed_write_reports_success {V M : Type}
    (st : MemoryStoreState V M) (key : String) (value : V) (md : M) (flushOk : Bool) :
    (storeMemoryOp st key value md flushOk).2.success = true
    ∧ (storeMemoryOp st key value md flushOk).1.entries
        = storeMemoryEntries key value md st.entries
    ∧ (((storeMemoryOp st key value md flushOk).1.entries.find?
          (fun e => e.key == key)).map (fun e => e.value) = some value)
    ∧ (storeMemoryOp st key value md flushOk).1.disk
        = (if flushOk then storeMemoryEntries key value md st.entries else st.disk) := by
  refine ⟨rfl, ?_, ?_, ?_⟩
  · cases flushOk <;> rfl
  · cases flushOk <;> simp [storeMemoryOp, saveMemory, find?_storeMemoryEntries]
  · cases flushOk <;> rfl

/-- C9: writing key `k` with value `v` to either memory layer and then
immediately reading `k` returns exactly `v`, and the read hands back the
entry list unchanged - reads never append to or modify any history. -/
theorem C9_write_then_read_roundtrip {V M : Type}
    (sessionEntries : List (SessionEntry V M)) (ltEntries : List (LongTermEntry V M))
    (key : String) (value : V) (md : M) :
    (retrieveMemory (storeMemoryEntries key value md sessionEntries) key).1.value?
        = some value
    ∧ (retrieveMemory (storeMemoryEntries key value md sessionEntries) key).2
        = storeMemoryEntries key value md sessionEntries
    ∧ (retrieveLongTermMemory (storeLongTermEntries key value md ltEntries) key).1.value?
        = some value
    ∧ (retrieveLongTermMemory (storeLongTermEntries key value md ltEntries) key).2
        = storeLongTermEntries key value md ltEntries := by
  refine ⟨?_, ?_, ?_, ?_⟩
  · simp [retrieveMemory, find?_storeMemoryEntries]
  · simp [retrieveMemory]
    cases h : (storeMemoryEntries key value md sessionEntries).find? (fun e => e.key == key) <;>
      simp [h]
  · simp [retrieveLongTermMemory, find?_storeLongTermEntries]
  · simp [retrieveLongTermMemory]
    cases h : (storeLongTermEntries key value md ltEntries).find? (fun e => e.key == key) <;>
      simp [h]

/-- The scenario history `[0.20, 0.1999, 0.2001, 0.1998]` analyzed: the
average improvement is `1/15000`, whose magnitude is below `1/1000`, so the
trend is stagnant (and, being positive, also improving). -/
theorem analyzeTrends_stagnant_scenario :
    analyzeTrends (some [1/5, 1999/10000, 2001/10000, 999/5000])
      = ⟨"improving", true, true, some (1/15000),
         some [1/5, 1999/10000, 2001/10000, 999/5000]⟩ := by
  have habs : |(1/15000 : ℚ)| = 1/15000 := abs_of_nonneg (by norm_num)
  simp [analyzeTrends, consecutiveImprovements]
  norm_num
  rw [habs]
  norm_num

/-- The scenario history `[0.25, 0.22, 0.20, 0.18, 0.15]` analyzed: the
average improvement is `1/40`, positive and not within `1/1000` of zero, so
the trend is improving and not stagnant. -/
theorem analyzeTrends_improving_scenario :
    analyzeTrends (some [1/4, 11/50, 1/5, 9/50, 3/20])
      = ⟨"improving", true, false, some (1/40), some [1/4, 11/50, 1/5, 9/50, 3/20]⟩ := by
  have habs : |(1/40 : ℚ)| = 1/40 := abs_of_nonneg (by norm_num)
  simp [analyzeTrends, consecutiveImprovements]
  norm_num
  rw [habs]
  norm_num

/-- C6, counterexample: with the stagnant history of the scenario
(`[0.20, 0.1999, 0.2001, 0.1998]`) but the advisory service available and
returning a parseable reply, the recommender returns that reply as-is, not
"Try different approach" - so the claim does not hold "with or without the
advisory service available". -/
theorem C6_available_advisory_overrides_stagnant :
    (analyzeTrends (some [1/5, 1999/10000, 2001/10000, 999/5000])).stagnant = true
    ∧ recommendExecute (some [1/5, 1999/10000, 2001/10000, 999/5000])
        (999/5000) (1/10) 3
        (.reply ⟨"Hyperparameter tuning", "Apply GridSearchCV for optimal parameters",
          "Moderate improvement expected", "Try cross-validation with different model", false⟩)
        = ⟨"Hyperparameter tuning", "Apply GridSearchCV for optimal parameters",
          "Moderate improvement expected", "Try cross-validation with different model", false⟩
    ∧ ("Hyperparameter tuning" : String) ≠ "Try different approach" := by
  refine ⟨by rw [analyzeTrends_stagnant_scenario], rfl, by decide⟩

/-- C6, amended: whenever trend analysis yields `stagnant = true` and the
advisory service is unavailable or its reply fails to parse, the
recommender returns the "Try different approach" recommendation with
`tryDifferentApproach = true`, regardless of the iteration number and of
the current and target metric. -/
theorem C6_stagnant_forces_different_approach (mseHistory : Option (List ℚ))
    (currentMSE targetMSE : ℚ) (iterationNumber : ℕ)
    (h : (analyzeTrends mseHistory).stagnant = true) :
    recommendExecute mseHistory currentMSE targetMSE iterationNumber .unavailable
        = ⟨"Try different approach",
           "Switch to ensemble methods or different model architecture",
           "Moderate improvement expected",
           "Try cross-validation with different model", true⟩
    ∧ recommendExecute mseHistory currentMSE targetMSE iterationNumber .parseFail
        = ⟨"Try different approach",
           "Switch to ensemble methods or different model architecture",
           "Moderate improvement expected",
           "Try cross-validation with different model", true⟩ := by
  constructor <;> simp [recommendExecute, fallbackStrategy, h]

/-- C6, witness: the amended theorem applied to the scenario history
`[0.20, 0.1999, 0.2001, 0.1998]` at iteration 42. -/
theorem C6_stagnant_forces_different_approach_witness :
    recommendExecute (some [1/5, 1999/10000, 2001/10000, 999/5000])
        (999/5000) (1/10) 42 .unavailable
        = ⟨"Try different approach",
           "Switch to ensemble methods or different model architecture",
           "Moderate improvement expected",
           "Try cross-validation with different model", true⟩
    ∧ recommendExecute (some [1/5, 1999/10000, 2001/10000, 999/5000])
        (999/5000) (1/10) 42 .parseFail
        = ⟨"Try different approach",
           "Switch to ensemble methods or different model architecture",
           "Moderate improvement expected",
           "Try cross-validation with different model", true⟩ :=
  C6_stagnant_forces_different_approach (some [1/5, 1999/10000, 2001/10000, 999/5000])
    (999/5000) (1/10) 42 (by rw [analyzeTrends_stagnant_scenario])

/-- C7: the rule ladder of `_fallbackStrategy` is exactly the ladder the
specification orders - stagnant, else not improving, else iteration below
10, else iteration below 20, else ensemble methods - and on the scenario
history `[0.25, 0.22, 0.20, 0.18, 0.15]` at iteration 5 the trend analyzer
reports an improving, non-stagnant trend and the fallback returns
"Hyperparameter tuning". -/
theorem C7_ladder_order_and_scenario :
    (∀ (mseHistory : Option (List ℚ)) (currentMSE targetMSE : ℚ) (iterationNumber : ℕ),
      rungOfStrategy (fallbackStrategy mseHistory currentMSE targetMSE iterationNumber).strategy
        = some (ladderSpec (analyzeTrends mseHistory).stagnant
            (analyzeTrends mseHistory).improvement iterationNumber))
    ∧ (analyzeTrends (some [1/4, 11/50, 1/5, 9/50, 3/20])).trend = "improving"
    ∧ (analyzeTrends (some [1/4, 11/50, 1/5, 9/50, 3/20])).stagnant = false
    ∧ (fallbackStrategy (some [1/4, 11/50, 1/5, 9/50, 3/20]) (3/20) (1/10) 5).strategy
        = "Hyperparameter tuning" := by
  refine ⟨?_, by rw [analyzeTrends_improving_scenario], by rw [analyzeTrends_improving_scenario],
    by simp only [fallbackStrategy, analyzeTrends_improving_scenario]; rfl⟩
  intro mseHistory currentMSE targetMSE iterationNumber
  unfold fallbackStrategy ladderSpec
  cases h1 : (analyzeTrends mseHistory).stagnant <;>
    cases h2 : (analyzeTrends mseHistory).improvement <;>
    by_cases h3 : iterationNumber < 10 <;>
    by_cases h4 : iterationNumber < 20 <;>
    simp [h1, h2, h3, h4, rungOfStrategy]

/-- C8: for a missing history and for every history of length 0 or 1, the
trend analyzer returns `trend = "insufficient_data"` and
`stagnant = false`. -/
theorem C8_insufficient_data_edge_case :
    (analyzeTrends none).trend = "insufficient_data"
    ∧ (analyzeTrends none).stagnant = false
    ∧ (analyzeTrends (some [])).trend = "insufficient_data"
    ∧ (analyzeTrends (some [])).stagnant = false
    ∧ (∀ q : ℚ, (analyzeTrends (some [q])).trend = "insufficient_data"
        ∧ (analyzeTrends (some [q])).stagnant = false) := by
  refine ⟨rfl, rfl, rfl, rfl, fun q => ?_⟩
  constructor <;> simp [analyzeTrends]

/-- C10: for a missing history and for every history of length 0 or 1, the
fallback strategy is "Simplify and regularize" with
`tryDifferentApproach = true`, for every iteration number: the
insufficient-data trend carries `improvement = false` and
`stagnant = false`, so the not-improving rung fires. -/
theorem C10_short_history_simplify_rung :
    (∀ (currentMSE targetMSE : ℚ) (iterationNumber : ℕ),
      fallbackStrategy none currentMSE targetMSE iterationNumber
        = ⟨"Simplify and regularize", "Add regularization, reduce model complexity",
           "Moderate improvement expected",
           "Try cross-validation with different model", true⟩)
    ∧ (∀ (currentMSE targetMSE : ℚ) (iterationNumber : ℕ),
      fallbackStrategy (some []) currentMSE targetMSE iterationNumber
        = ⟨"Simplify and regularize", "Add regularization, reduce model complexity",
           "Moderate improvement expected",
           "Try cross-validation with different model", true⟩)
    ∧ (∀ (q currentMSE targetMSE : ℚ) (iterationNumber : ℕ),
      fallbackStrategy (some [q]) currentMSE targetMSE iterationNumber
        = ⟨"Simplify and regularize", "Add regularization, reduce model complexity",
           "Moderate improvement expected",
           "Try cross-validation with different model", true⟩) := by
  refine ⟨fun cm tm i => ?_, fun cm tm i => ?_, fun q cm tm i => ?_⟩ <;>
    simp [fallbackStrategy, analyzeTrends]

/-- C5, counterexample: on the output line `iteration 2 gives 0.5`, with no
labelled match, the code extracts the FIRST numeric token of the last line
(`2`), while the claim says the LAST numeric token (`0.5`) is extracted -
the two extractions disagree at this input. -/
theorem C5_first_token_extracted_not_last :
    extractMSEToken ("iteration 2 gives 0.5".data) = some ("2".data)
    ∧ extractMSETokenSpec ("iteration 2 gives 0.5".data) = some ("0.5".data)
    ∧ extractMSEToken ("iteration 2 gives 0.5".data)
        ≠ extractMSETokenSpec ("iteration 2 gives 0.5".data) := by
  decide

/-- C5, amended: the executor extracts the metric as the labelled value
`MSE` + separators + number, case-insensitively, anywhere in the output;
else as the FIRST numeric token on the last output line; when nothing can
be extracted the result still has `success = true` with the metric absent,
and an iteration whose test yields an absent metric updates neither
`bestMSE` nor `bestCode`. -/
theorem C5_extraction_and_non_improving :
    extractMSEToken ("Pipeline executed\nMSE: 0.123".data) = some ("0.123".data)
    ∧ extractMSEToken ("final mse = 0.5".data) = some ("0.5".data)
    ∧ extractMSEToken ("step 3 done\nepoch 7 loss 0.25".data) = some ("7".data)
    ∧ extractMSEToken ("no metric in this output".data) = none
    ∧ testMLPipeline (some ("no metric in this output".data)) = ⟨true, .undef⟩
    ∧ (∀ (s : AutoState) (code : String),
        (autoStep (.tested none code) s).bestMSE = s.bestMSE
        ∧ (autoStep (.tested none code) s).bestCode = s.bestCode) := by
  refine ⟨by decide, by decide, by decide, by decide, by decide, fun s code => ?_⟩
  constructor <;> simp [autoStep, jsLtBest]

/-- C3: with target `0.05`, no recovered best, and the first iteration
producing the metric `0.04`, the run stops at iteration 1 with success (the
scenario of the claim holds); but a first iteration producing the metric 0,
which the claim also covers, does NOT stop the run: the terminal check
JavaScript-truthiness-tests `currentState.mse`, a zero metric is falsy, so
the loop runs to the iteration bound and `objectiveAchieved` stays false
even though `success` ends up true via the final partial-success check. -/
theorem C3_zero_metric_skips_terminal_check :
    runAutonomous ⟨1/20, none⟩ [.tested (some (1/25)) "c"]
      = (⟨true, 1, some (1/25), some (1/25), true⟩,
         ⟨1, some (1/25), some (1/25), some "c", [some (1/25)]⟩)
    ∧ (runAutonomous ⟨1/20, none⟩ [.tested (some 0) "c", .noPipeline]).1
        = ⟨true, 2, some 0, some 0, false⟩ := by
  constructor <;>
    norm_num [runAutonomous, runAutoAux, initialAutoState, autoStep, terminalCheck,
      skipsTerminalCheck, jsLtBest, bestMeets]

/-- C4, counterexample: with target `0.01`, an iteration that obtained
metric `0.2` with artifact `c1`, followed by an iteration whose pipeline
test failed, leaves `bestMSE = 0.2` but `bestCode = c2` - the untested code
of the failed iteration - so `bestArtifact` is not the artifact that
produced `bestMetric`. -/
theorem C4_failed_test_overwrites_bestCode :
    (runAutonomous ⟨1/100, none⟩ [.tested (some (1/5)) "c1", .testFail "c2"]).2.bestMSE
        = some (1/5)
    ∧ (runAutonomous ⟨1/100, none⟩ [.tested (some (1/5)) "c1", .testFail "c2"]).2.bestCode
        = some "c2"
    ∧ ("c2" : String) ≠ "c1" := by
  refine ⟨?_, ?_, by decide⟩ <;>
    norm_num [runAutonomous, runAutoAux, initialAutoState, autoStep, terminalCheck,
      skipsTerminalCheck, jsLtBest, bestMeets]

/-- Reflexivity of `leBest`. -/
theorem leBest_refl (b : Option ℚ) : leBest b b = true := by
  cases b <;> simp [leBest]

/-- Taking `minBest` with Infinity on the right is the identity. -/
theorem minBest_none_right (a : Option ℚ) : minBest a none = a := by
  cases a <;> rfl

/-- The improvement branch of `_executeOptimization` computes exactly the
minimum of the old best and the new metric. -/
theorem ite_jsLtBest_eq_minBest (b : Option ℚ) (q : ℚ) :
    (if jsLtBest (some q) b then some q else b) = minBest b (some q) := by
  cases b with
  | none => simp [jsLtBest, minBest]
  | some x =>
    by_cases h : q < x
    · simp [jsLtBest, minBest, h, min_eq_right h.le]
    · simp [jsLtBest, minBest, h, min_eq_left (le_of_not_lt h)]

/-- Associativity of `minBest`. -/
theorem minBest_assoc (a b c : Option ℚ) :
    minBest (minBest a b) c = minBest a (minBest b c) := by
  cases a <;> cases b <;> cases c <;> simp [minBest, min_assoc]

/-- Appending one metric to a history takes the minimum one step further. -/
theorem minList_append (l : List ℚ) (q : ℚ) :
    minList (l ++ [q]) = minBest (minList l) (some q) := by
  simp [minList, List.foldl_append]

/-- One loop iteration preserves the invariant that `bestMSE` is the
minimum of the recovered metric and all observed metrics. -/
theorem autoStep_bestMSE_min (R : Option ℚ) (e : IterEvent) (s : AutoState)
    (h : s.bestMSE = minBest R (minList (observedMetrics s))) :
    (autoStep e s).bestMSE = minBest R (minList (observedMetrics (autoStep e s))) := by
  cases e with
  | decisionFail => exact h
  | noPipeline => exact h
  | genFail => exact h
  | noDataGen code => exact h
  | testFail code => exact h
  | tested m code =>
    have hhist : (autoStep (.tested m code) s).mseHistory = s.mseHistory ++ [m] := by
      simp only [autoStep]
      split <;> rfl
    cases m with
    | none =>
      have hbest : (autoStep (.tested none code) s).bestMSE = s.bestMSE := by
        simp [autoStep, jsLtBest]
      rw [hbest, h]
      unfold observedMetrics
      rw [hhist, List.filterMap_append]
      simp [observedMetrics]
    | some q =>
      have hbest : (autoStep (.tested (some q) code) s).bestMSE
          = minBest s.bestMSE (some q) := by
        rw [← ite_jsLtBest_eq_minBest]
        by_cases hlt : jsLtBest (some q) s.bestMSE = true <;> simp [autoStep, hlt]
      rw [hbest, h]
      unfold observedMetrics
      rw [hhist, List.filterMap_append]
      have hfm : List.filterMap id [some q] = [q] := rfl
      rw [hfm, minList_append, ← minBest_assoc]

/-- The whole loop preserves the minimum invariant. -/
theorem runAutoAux_bestMSE_min (cfg : AutoConfig) (R : Option ℚ)
    (events : List IterEvent) :
    ∀ s : AutoState, s.bestMSE = minBest R (minList (observedMetrics s)) →
      (runAutoAux cfg s events).2.bestMSE
        = minBest R (minList (observedMetrics (runAutoAux cfg s events).2)) := by
  induction events with
  | nil => intro s h; exact h
  | cons e rest ih =>
    intro s h
    have hstep : (autoStep e { s with iteration := s.iteration + 1 }).bestMSE
        = minBest R (minList (observedMetrics
            (autoStep e { s with iteration := s.iteration + 1 }))) :=
      autoStep_bestMSE_min R e { s with iteration := s.iteration + 1 } h
    simp only [runAutoAux]
    split
    · exact ih _ hstep
    · split
      · exact hstep
      · exact ih _ hstep

/-- A clean iteration updates the `(bestMSE, bestCode)` pair exactly as one
`specStep` on its tested pair (none for an iteration without a numeric
metric). -/
theorem autoStep_pair (e : IterEvent) (s : AutoState) (hc : cleanEvent e = true) :
    ((autoStep e s).bestMSE, (autoStep e s).bestCode)
      = (testedPairs [e]).foldl specStep (s.bestMSE, s.bestCode) := by
  cases e with
  | decisionFail => rfl
  | noPipeline => rfl
  | genFail => rfl
  | noDataGen code => simp [cleanEvent] at hc
  | testFail code => simp [cleanEvent] at hc
  | tested m code =>
    cases m with
    | none => simp [autoStep, jsLtBest, testedPairs, testedPair?]
    | some q =>
      by_cases hlt : jsLtBest (some q) s.bestMSE = true <;>
        simp [autoStep, hlt, testedPairs, testedPair?, specStep]

/-- The loop consumes a prefix of the event list, and over clean events the
final `(bestMSE, bestCode)` pair is the `specStep` fold of the tested pairs
of that prefix. -/
theorem runAutoAux_pair (cfg : AutoConfig) (events : List IterEvent) :
    ∀ s : AutoState, (∀ e ∈ events, cleanEvent e = true) →
      ∃ consumed rest, events = consumed ++ rest
        ∧ ((runAutoAux cfg s events).2.bestMSE, (runAutoAux cfg s events).2.bestCode)
            = (testedPairs consumed).foldl specStep (s.bestMSE, s.bestCode) := by
  induction events with
  | nil => exact fun s _ => ⟨[], [], rfl, rfl⟩
  | cons e rest ih =>
    intro s h
    have hce : cleanEvent e = true := h e (List.mem_cons_self e rest)
    have hrest : ∀ x ∈ rest, cleanEvent x = true :=
      fun x hx => h x (List.mem_cons_of_mem e hx)
    have hstep := autoStep_pair e { s with iteration := s.iteration + 1 } hce
    simp only [runAutoAux]
    split
    · obtain ⟨c, r, hcr, heq⟩ := ih _ hrest
      refine ⟨e :: c, r, by rw [hcr, List.cons_append], ?_⟩
      rw [heq, hstep]
      simp [testedPairs, List.foldl_append]
      cases htp : testedPair? e <;> simp [htp]
    · split
      · exact ⟨[e], rest, rfl, hstep⟩
      · obtain ⟨c, r, hcr, heq⟩ := ih _ hrest
        refine ⟨e :: c, r, by rw [hcr, List.cons_append], ?_⟩
        rw [heq, hstep]
        simp [testedPairs, List.foldl_append]
        cases htp : testedPair? e <;> simp [htp]

/-- Tracking the best pair componentwise with `specStep` agrees with
tracking it as one optional pair with `specBest`: the code component always
belongs to the same pair as the metric component. -/
theorem foldl_specStep_eq_specBest (pairs : List (ℚ × String)) :
    ∀ acc : Option (ℚ × String),
      pairs.foldl specStep (acc.map Prod.fst, acc.map Prod.snd)
        = ((pairs.foldl specBest acc).map Prod.fst,
           (pairs.foldl specBest acc).map Prod.snd) := by
  induction pairs with
  | nil => intro acc; rfl
  | cons p ps ih =>
    intro acc
    have hstep : specStep (acc.map Prod.fst, acc.map Prod.snd) p
        = ((specBest acc p).map Prod.fst, (specBest acc p).map Prod.snd) := by
      cases acc with
      | none => simp [specStep, specBest, jsLtBest]
      | some a =>
        by_cases hlt : jsLtBest (some p.1) (some a.1) = true <;>
          simp [specStep, specBest, hlt]
    rw [List.foldl_cons, List.foldl_cons, hstep, ih]

/-- C4, amended: (1) `bestMSE` never increases across a loop iteration;
(2) at the end of every run, `bestMSE` equals the minimum of the best
metric recovered from the persistent layer at startup (when one exists) and
of all numeric metrics observed in `mseHistory`; (3) provided no iteration
generated code whose test failed or was skipped for lack of a data file,
the final `(bestMSE, bestCode)` pair is the running minimum, as one pair,
of the recovered pair and the tested `(metric, artifact)` pairs of the
consumed prefix of iterations - in particular `bestCode` is then the
artifact that produced `bestMSE`. -/
theorem C4_monotone_min_and_artifact :
    (∀ (e : IterEvent) (s : AutoState), leBest (autoStep e s).bestMSE s.bestMSE = true)
    ∧ (∀ (cfg : AutoConfig) (events : List IterEvent),
        (runAutonomous cfg events).2.bestMSE
          = minBest (cfg.recovered.map Prod.fst)
              (minList (observedMetrics (runAutonomous cfg events).2)))
    ∧ (∀ (cfg : AutoConfig) (events : List IterEvent),
        (∀ e ∈ events, cleanEvent e = true) →
        ∃ consumed rest, events = consumed ++ rest
          ∧ (runAutonomous cfg events).2.bestMSE
              = ((testedPairs consumed).foldl specBest cfg.recovered).map Prod.fst
          ∧ (runAutonomous cfg events).2.bestCode
              = ((testedPairs consumed).foldl specBest cfg.recovered).map Prod.snd) := by
  refine ⟨?_, ?_, ?_⟩
  · intro e s
    cases e with
    | decisionFail => exact leBest_refl _
    | noPipeline => exact leBest_refl _
    | genFail => exact leBest_refl _
    | noDataGen code => exact leBest_refl _
    | testFail code => exact leBest_refl _
    | tested m code =>
      cases m with
      | none =>
        have hbest : (autoStep (.tested none code) s).bestMSE = s.bestMSE := by
          simp [autoStep, jsLtBest]
        rw [hbest]
        exact leBest_refl _
      | some q =>
        have hbest : (autoStep (.tested (some q) code) s).bestMSE
            = minBest s.bestMSE (some q) := by
          rw [← ite_jsLtBest_eq_minBest]
          by_cases hlt : jsLtBest (some q) s.bestMSE = true <;> simp [autoStep, hlt]
        rw [hbest]
        cases hb : s.bestMSE with
        | none => simp [minBest, leBest]
        | some b => simp [minBest, leBest, min_le_left]
  · intro cfg events
    have hinit : (initialAutoState cfg).bestMSE
        = minBest (cfg.recovered.map Prod.fst)
            (minList (observedMetrics (initialAutoState cfg))) := by
      simp [initialAutoState, observedMetrics, minList, minBest_none_right]
    exact runAutoAux_bestMSE_min cfg (cfg.recovered.map Prod.fst) events
      (initialAutoState cfg) hinit
  · intro cfg events h
    obtain ⟨c, r, hcr, heq⟩ := runAutoAux_pair cfg events (initialAutoState cfg) h
    have hinit : ((initialAutoState cfg).bestMSE, (initialAutoState cfg).bestCode)
        = (cfg.recovered.map Prod.fst, cfg.recovered.map Prod.snd) := rfl
    rw [hinit, foldl_specStep_eq_specBest (testedPairs c) cfg.recovered] at heq
    exact ⟨c, r, hcr, congrArg Prod.fst heq, congrArg Prod.snd heq⟩

/-- C4, witness: the clean-trace conjunct of the amended theorem applied to
a two-iteration run recovering a best of `3` with artifact `r`, then
observing `2` with artifact `a` and `5` with artifact `b`. -/
theorem C4_monotone_min_and_artifact_witness :
    ∃ consumed rest,
      ([.tested (some 2) "a", .tested (some 5) "b"] : List IterEvent) = consumed ++ rest
      ∧ (runAutonomous ⟨1, some (3, "r")⟩
            [.tested (some 2) "a", .tested (some 5) "b"]).2.bestMSE
          = ((testedPairs consumed).foldl specBest
              ((⟨1, some (3, "r")⟩ : AutoConfig).recovered)).map Prod.fst
      ∧ (runAutonomous ⟨1, some (3, "r")⟩
            [.tested (some 2) "a", .tested (some 5) "b"]).2.bestCode
          = ((testedPairs consumed).foldl specBest
              ((⟨1, some (3, "r")⟩ : AutoConfig).recovered)).map Prod.snd :=
  C4_monotone_min_and_artifact.2.2 ⟨1, some (3, "r")⟩
    [.tested (some 2) "a", .tested (some 5) "b"] (by decide)
